import Mathlib

/-!
Shallow embedding of the document-indexer retrieval core
(`chunker.js`, `indexer.js`, `searcher.js`, `embedder.js`) and proofs of
the specified properties.

Strings are modelled as `List Char`, JS numbers occurring in embeddings
and scores as `ℝ`, array indices and counts as `ℕ` (with `ℤ` where the
source computes a possibly negative intermediate).  Loops are embedded
either structurally or with explicit fuel when the source's own
termination is the property at issue.
-/

namespace DocIndexer

/-! ### chunker.js -/

/-- The whitespace class of the regex `\s` used by
`text.replace(/\s+/g, ' ')` (restricted to the ASCII whitespace
characters; the inputs considered here use only these). -/
def isWs (c : Char) : Bool := c == ' ' || c == '\t' || c == '\n' || c == '\r'

/-- `text.replace(/\s+/g, ' ')`: each maximal whitespace run becomes a
single space. -/
def collapseWs : List Char → List Char
  | [] => []
  | [c] => if isWs c then [' '] else [c]
  | c1 :: c2 :: rest =>
      if isWs c1 && isWs c2 then collapseWs (c2 :: rest)
      else (if isWs c1 then ' ' else c1) :: collapseWs (c2 :: rest)

/-- JS `String.prototype.trim`: strip whitespace from both ends. -/
def trimChars (l : List Char) : List Char :=
  ((l.dropWhile isWs).reverse.dropWhile isWs).reverse

/-- `text.replace(/\s+/g, ' ').trim()` from `chunkText`. -/
def normalizeText (text : List Char) : List Char :=
  trimChars (collapseWs text)

/-- The backward scan of `findWordBoundary`:
`while (pos > 0 && text[pos] !== ' ') pos--; return pos`.
Structural recursion on `pos`; the entry position is `< text.length`. -/
def scanBack (text : List Char) : ℕ → ℕ
  | 0 => 0
  | p + 1 => if text.getD (p + 1) ' ' = ' ' then p + 1 else scanBack text p

/-- The forward scan of `findWordBoundary`:
`while (pos < text.length && text[pos] !== ' ') pos++; return pos`.
The fuel argument is instantiated with `text.length - pos`, an exact
bound on the number of iterations, so the fuelled function equals the
source loop. -/
def scanFwd (text : List Char) : ℕ → ℕ → ℕ
  | 0, pos => pos
  | fuel + 1, pos =>
      if pos < text.length ∧ ¬ text.getD pos ' ' = ' ' then scanFwd text fuel (pos + 1)
      else pos

/-- `findWordBoundary(text, position, direction)` from chunker.js,
with `forward = true` for direction `'forward'` and `false` for the
default `'backward'`. -/
def findWordBoundary (text : List Char) (position : ℕ) (forward : Bool := false) : ℕ :=
  if text.length ≤ position then text.length
  else if forward then
    let pos := scanFwd text (text.length - position) position
    if pos < text.length then pos + 1 else text.length
  else
    let pos := scanBack text position
    if 0 < pos then pos else position

/-- The `while (startIndex < normalizedText.length)` loop of
`chunkText`, instrumented to record each emitted chunk together with
the value of `startIndex` at its emission.  `fuel` bounds the number of
iterations: a `none` result means the loop has not finished within
`fuel` iterations, so `(∀ fuel, … = none)` states non-termination. -/
def chunkLoop (text : List Char) (chunkSize overlap : ℕ) :
    ℕ → ℕ → List (ℕ × List Char) → Option (List (ℕ × List Char))
  | 0, _, _ => none
  | fuel + 1, start, acc =>
      let endIndex :=
        if start + chunkSize < text.length then findWordBoundary text (start + chunkSize)
        else text.length
      let chunk := trimChars ((text.drop start).take (endIndex - start))
      let acc2 := if chunk = [] then acc else acc ++ [(start, chunk)]
      let newStart : ℤ := (endIndex : ℤ) - (overlap : ℤ)
      let start2 :=
        if (start : ℤ) < newStart then findWordBoundary text newStart.toNat true
        else endIndex
      if text.length ≤ start2 then some acc2
      else chunkLoop text chunkSize overlap fuel start2 acc2

/-- `chunkText(text, chunkSize, overlap)` from chunker.js, fuelled.
`some (.ok l)` is a normal return with emitted chunks `l` (paired with
their emission offsets), `some (.error m)` is a thrown `Error(m)`, and
`none` means the main loop did not finish within `fuel` iterations. -/
def chunkTextFuel (text : List Char) (chunkSize overlap : ℕ) (fuel : ℕ) :
    Option (Except String (List (ℕ × List Char))) :=
  if text = [] then some (Except.ok [])
  else
    let nt := normalizeText text
    if nt.length = 0 then some (Except.ok [])
    else if nt.length ≤ chunkSize then some (Except.ok [(0, nt)])
    else if chunkSize ≤ overlap then
      some (Except.error "Overlap must be smaller than chunk size")
    else (chunkLoop nt chunkSize overlap fuel 0 []).map Except.ok

/-- The input on which the chunker loops forever: `"a "` followed by 28
copies of `'b'` (one space at offset 1, then a word longer than the
chunk size). -/
def badText : List Char := 'a' :: ' ' :: List.replicate 28 'b'

/-! ### embedder.js (constants consumed by indexer.js) -/

/-- `getModelName()` from embedder.js. -/
def getModelName : String := "Xenova/all-MiniLM-L6-v2"

/-- `getEmbeddingDimension()` from embedder.js. -/
def getEmbeddingDimension : ℕ := 384

/-! ### indexer.js data model -/

/-- `source` field of a chunked document (`chunkDocument` output). -/
@[ext] structure Source where
  filename : String
  chunkIndex : ℕ

/-- A chunked document with provenance, as consumed by `createIndex`. -/
@[ext] structure Chunk where
  content : String
  source : Source

/-- An element of `index.documents` as built by `createIndex`. -/
@[ext] structure IndexedRecord where
  id : ℕ
  content : String
  embedding : List ℝ
  source : Source

/-- `index.metadata` as built by `createIndex`.  The `created` timestamp
(`new Date().toISOString()`) is an external input, passed as an
argument. -/
@[ext] structure Metadata where
  created : String
  model : String
  embeddingDimension : ℕ
  totalChunks : ℕ
  chunkSize : ℕ
  overlap : ℕ

/-- The index object built by `createIndex`. -/
@[ext] structure Index where
  metadata : Metadata
  documents : List IndexedRecord

/-- The `for` loop of `createIndex`: walk the chunk/embedding pairs,
pushing a record (with `id := validDocuments.length`) for each non-null
embedding and skipping null ones.  `acc` is `validDocuments`. -/
def buildDocs : List (Chunk × Option (List ℝ)) → List IndexedRecord → List IndexedRecord
  | [], acc => acc
  | (c, some e) :: rest, acc =>
      buildDocs rest (acc ++ [⟨acc.length, c.content, e, c.source⟩])
  | (_, none) :: rest, acc => buildDocs rest acc

/-- `createIndex(chunks, embeddings, options)` from indexer.js.
`embeddings[i] = none` models the `null` failure sentinel pushed by
`generateEmbeddings`. -/
def createIndex (chunks : List Chunk) (embeddings : List (Option (List ℝ)))
    (chunkSize overlap : ℕ) (created : String) : Except String Index :=
  if chunks.length ≠ embeddings.length then
    Except.error ("Mismatch between chunks (" ++ toString chunks.length
      ++ ") and embeddings (" ++ toString embeddings.length ++ ")")
  else
    let validDocuments := buildDocs (chunks.zip embeddings) []
    Except.ok
      { metadata :=
          { created := created
            model := getModelName
            embeddingDimension := getEmbeddingDimension
            totalChunks := validDocuments.length
            chunkSize := chunkSize
            overlap := overlap }
        documents := validDocuments }

/-- Accumulator-free form of `buildDocs`: `n` is the number of records
already accepted. -/
def mkDocs : List (Chunk × Option (List ℝ)) → ℕ → List IndexedRecord
  | [], _ => []
  | (c, some e) :: rest, n => ⟨n, c.content, e, c.source⟩ :: mkDocs rest (n + 1)
  | (_, none) :: rest, n => mkDocs rest n

/-- Inputs for the C7 witness: three chunks, the middle embedding
failed (null). -/
def chunks0 : List Chunk :=
  [⟨"one", ⟨"f.txt", 0⟩⟩, ⟨"two", ⟨"f.txt", 1⟩⟩, ⟨"three", ⟨"f.txt", 2⟩⟩]

def embeddings0 : List (Option (List ℝ)) := [some [1, 0], none, some [0, 1]]

/-! ### searcher.js -/

/-- `DEFAULT_THRESHOLD` from searcher.js. -/
noncomputable def DEFAULT_THRESHOLD : ℝ := 3 / 10

/-- `cosineSimilarity(vecA, vecB)` from searcher.js.  JS numbers are
modelled as reals, `Math.sqrt` as `Real.sqrt`; a thrown `Error` is an
`Except.error` carrying the message. -/
noncomputable def cosineSimilarity (vecA vecB : List ℝ) : Except String ℝ :=
  if vecA.length ≠ vecB.length then Except.error "Vectors must have the same length"
  else
    let dotProduct := ((vecA.zip vecB).map (fun p => p.1 * p.2)).sum
    let normA := (vecA.map (fun x => x * x)).sum
    let normB := (vecB.map (fun x => x * x)).sum
    let magnitude := Real.sqrt normA * Real.sqrt normB
    if magnitude = 0 then Except.ok 0 else Except.ok (dotProduct / magnitude)

/-- One element of `allResults` / `results` in `searchIndex`. -/
@[ext] structure ScoredResult where
  content : String
  source : Source
  score : ℝ

/-- The `stats` object of the main (non-degenerate) return path of
`searchIndex`.  `minPassedScore = none` models JS `null`. -/
@[ext] structure SearchStats where
  total : ℕ
  topK : ℕ
  filtered : ℕ
  passed : ℕ
  threshold : ℝ
  maxScore : ℝ
  minPassedScore : Option ℝ

/-- The two return shapes of `searchIndex`: the early return
`{ results: [], stats: { total: 0, filtered: 0, passed: 0 } }` for a
missing or empty index, and the full shape. -/
inductive SearchResponse where
  | degenerate : SearchResponse
  | found : List ScoredResult → SearchStats → SearchResponse

/-- The `results` field of either return shape. -/
def SearchResponse.results : SearchResponse → List ScoredResult
  | SearchResponse.degenerate => []
  | SearchResponse.found rs _ => rs

/-- `index.documents.map(doc => ({content, source, score: cosineSimilarity(queryEmbedding, doc.embedding)}))`:
scores are computed document by document in order, and the first thrown
error propagates. -/
noncomputable def scoreDocs (q : List ℝ) : List IndexedRecord → Except String (List ScoredResult)
  | [] => Except.ok []
  | doc :: rest => do
      let s ← cosineSimilarity q doc.embedding
      let tail ← scoreDocs q rest
      Except.ok (⟨doc.content, doc.source, s⟩ :: tail)

/-- `allResults.sort((a, b) => b.score - a.score)`: a stable sort that
puts higher scores first (ECMAScript requires `Array.prototype.sort` to
be stable, and stable sorting is determined by the comparator, so any
stable descending sort is the exact model). -/
noncomputable def sortScores (l : List ScoredResult) : List ScoredResult :=
  l.mergeSort (fun a b => decide (b.score ≤ a.score))

/-- `searchIndex(index, queryEmbedding, { topK, threshold })` from
searcher.js.  The `!index || !index.documents` part of the guard is not
representable (an index value always has a `documents` field here); the
`index.documents.length === 0` part is.  `topK` is a count (the claims
under verification use `topK ≥ 0`). -/
noncomputable def searchIndex (index : Index) (queryEmbedding : List ℝ)
    (topK : ℕ) (threshold : ℝ) : Except String SearchResponse :=
  if index.documents.length = 0 then Except.ok SearchResponse.degenerate
  else do
    let allResults ← scoreDocs queryEmbedding index.documents
    let sorted := sortScores allResults
    let topResults := sorted.take topK
    let filteredResults := topResults.filter (fun r => decide (threshold ≤ r.score))
    Except.ok (SearchResponse.found filteredResults
      { total := allResults.length
        topK := topResults.length
        filtered := topResults.length - filteredResults.length
        passed := filteredResults.length
        threshold := threshold
        maxScore := match topResults with | [] => 0 | t :: _ => t.score
        minPassedScore := filteredResults.getLast?.map (fun r => r.score) })

/-- `searchIndex` in state-passing form: the store component is the
caller's `index.documents` array.  Every array the body touches is
fresh (`map` allocates `allResults`, `sort` mutates only `allResults`,
`slice` and `filter` allocate again); no statement of the source writes
to `index.documents`, so the store the function returns is the binding
it received. -/
noncomputable def searchIndexSt (documents : List IndexedRecord) (queryEmbedding : List ℝ)
    (topK : ℕ) (threshold : ℝ) : Except String (SearchResponse × List IndexedRecord) :=
  if documents.length = 0 then Except.ok (SearchResponse.degenerate, documents)
  else do
    let allResults ← scoreDocs queryEmbedding documents
    let sorted := sortScores allResults
    let topResults := sorted.take topK
    let filteredResults := topResults.filter (fun r => decide (threshold ≤ r.score))
    Except.ok (SearchResponse.found filteredResults
      { total := allResults.length
        topK := topResults.length
        filtered := topResults.length - filteredResults.length
        passed := filteredResults.length
        threshold := threshold
        maxScore := match topResults with | [] => 0 | t :: _ => t.score
        minPassedScore := filteredResults.getLast?.map (fun r => r.score) }, documents)

/-! ### indexer.js persistence (saveIndex / loadIndex)

`saveIndex` writes `JSON.stringify(index, null, 2)` to a file and
`loadIndex` reads the file back through `JSON.parse` and validates it.
The file system and the `JSON.parse ∘ JSON.stringify` identity are
platform builtins outside this repository, so persistence is modelled
at the JSON value level: `indexToJson` is the JSON document
`saveIndex` serializes (fields in the object-literal order of the
source), and `loadIndexJson` is the validation `loadIndex` performs on
the parsed value. -/

/-- A JSON value; numbers are modelled as reals like every other JS
number here. -/
inductive Json where
  | null : Json
  | bool : Bool → Json
  | num : ℝ → Json
  | str : String → Json
  | arr : List Json → Json
  | obj : List (String × Json) → Json

/-- JS property access `parsed[key]` on a parsed JSON value:
`none` models `undefined`. -/
def jsGet : Json → String → Option Json
  | Json.obj fields, key => (fields.find? (fun f => f.1 == key)).map (fun f => f.2)
  | _, _ => none

/-- JS truthiness of a parsed JSON value (`!x` is `!jsTruthy x`). -/
noncomputable def jsTruthy : Json → Bool
  | Json.null => false
  | Json.bool b => b
  | Json.num x => decide (x ≠ 0)
  | Json.str s => decide (s ≠ "")
  | Json.arr _ => true
  | Json.obj _ => true

/-- Truthiness of a possibly-`undefined` property. -/
noncomputable def jsTruthyOpt : Option Json → Bool
  | none => false
  | some j => jsTruthy j

/-- The validation in `loadIndex`:
`if (!index.metadata || !index.documents) throw new Error(...)`,
then the parsed value is returned unchanged. -/
noncomputable def loadIndexJson (j : Json) : Except String Json :=
  if jsTruthyOpt (jsGet j "metadata") && jsTruthyOpt (jsGet j "documents")
    then Except.ok j
  else Except.error "Invalid index format: missing metadata or documents"

/-- Serialization of a `source` object. -/
def sourceToJson (s : Source) : Json :=
  Json.obj [("filename", Json.str s.filename), ("chunkIndex", Json.num s.chunkIndex)]

/-- Serialization of one element of `index.documents` (field order of
the object literal in `createIndex`). -/
def docToJson (r : IndexedRecord) : Json :=
  Json.obj [("id", Json.num r.id), ("content", Json.str r.content),
    ("embedding", Json.arr (r.embedding.map Json.num)),
    ("source", sourceToJson r.source)]

/-- Serialization of `index.metadata`. -/
def metadataToJson (m : Metadata) : Json :=
  Json.obj [("created", Json.str m.created), ("model", Json.str m.model),
    ("embeddingDimension", Json.num m.embeddingDimension),
    ("totalChunks", Json.num m.totalChunks),
    ("chunkSize", Json.num m.chunkSize), ("overlap", Json.num m.overlap)]

/-- The JSON document `saveIndex` writes: `JSON.stringify(index)` at
the value level. -/
def indexToJson (idx : Index) : Json :=
  Json.obj [("metadata", metadataToJson idx.metadata),
    ("documents", Json.arr (idx.documents.map docToJson))]

/-! ### Concrete values used by witnesses and counterexamples -/

def src0 : Source := ⟨"f.txt", 0⟩

def meta1 : Metadata := ⟨"t", getModelName, 384, 1, 500, 50⟩

def doc1 : IndexedRecord := ⟨0, "hello", [1], src0⟩

def idx1 : Index := ⟨meta1, [doc1]⟩

def docNeg : IndexedRecord := ⟨0, "neg", [-1], src0⟩

def idxNeg : Index := ⟨meta1, [docNeg]⟩

def doc2 : IndexedRecord := ⟨0, "d2", [1, 2], src0⟩

def idx2 : Index := ⟨meta1, [doc2]⟩

def idxEmpty : Index := ⟨meta1, []⟩

def docNeg2 : IndexedRecord := ⟨1, "neg", [-1], src0⟩

def idx3 : Index := ⟨meta1, [doc1, docNeg2]⟩

/-- From state `startIndex = 1` on `badText` with `chunkSize = 10`,
`overlap = 5`, the loop body recomputes `endIndex = 1` (the backward
boundary search runs past `startIndex` to the space at offset 1),
emits nothing, and sets `startIndex` back to `1`: the state repeats
forever, so no amount of fuel finishes the loop. -/
theorem chunkLoop_stuck :
    ∀ (fuel : ℕ) (acc : List (ℕ × List Char)),
      chunkLoop badText 10 5 fuel 1 acc = none := by
  intro fuel
  induction fuel with
  | zero => intro acc; rfl
  | succ n ih => intro acc; exact ih acc

/-- C1: FALSIFIED by the code.  The claim states `chunkText` terminates
for every finite input and positive parameters with
`overlap < chunkSize`.  On `badText` with `chunkSize = 10`,
`overlap = 5` the loop never terminates: after the first iteration
`startIndex = 1`, and every later iteration has `endIndex = 1`
(the backward word-boundary search returns the space at offset 1,
*before* the cursor), emits an empty slice, and resets
`startIndex = endIndex = 1`.  Formally: for every fuel bound the
fuelled loop fails to finish. -/
theorem chunkText_nonterminating :
    ∀ fuel : ℕ, chunkTextFuel badText 10 5 fuel = none := by
  intro fuel
  cases fuel with
  | zero => rfl
  | succ n =>
      have h1 : chunkTextFuel badText 10 5 (n + 1)
          = (chunkLoop badText 10 5 n 1 [(0, ['a'])]).map Except.ok := rfl
      rw [h1, chunkLoop_stuck]
      rfl

theorem buildDocs_eq_append :
    ∀ (l : List (Chunk × Option (List ℝ))) (acc : List IndexedRecord),
      buildDocs l acc = acc ++ mkDocs l acc.length := by
  intro l
  induction l with
  | nil => intro acc; simp [buildDocs, mkDocs]
  | cons ce rest ih =>
      intro acc
      obtain ⟨c, e⟩ := ce
      cases e with
      | none => simpa [buildDocs, mkDocs] using ih acc
      | some v =>
          simp only [buildDocs, mkDocs, ih]
          simp

theorem mkDocs_map_payload (l : List (Chunk × Option (List ℝ))) :
    ∀ n, (mkDocs l n).map (fun r => (r.content, r.embedding, r.source))
      = l.filterMap (fun ce => ce.2.map (fun e => (ce.1.content, e, ce.1.source))) := by
  induction l with
  | nil => intro n; simp [mkDocs]
  | cons ce rest ih =>
      intro n
      obtain ⟨c, e⟩ := ce
      cases e with
      | none => simpa [mkDocs, List.filterMap_cons] using ih n
      | some v => simpa [mkDocs, List.filterMap_cons] using ih (n + 1)

theorem mkDocs_map_embedding (l : List (Chunk × Option (List ℝ))) :
    ∀ n, (mkDocs l n).map (fun r => r.embedding) = l.filterMap (fun ce => ce.2) := by
  induction l with
  | nil => intro n; simp [mkDocs]
  | cons ce rest ih =>
      intro n
      obtain ⟨c, e⟩ := ce
      cases e with
      | none => simpa [mkDocs, List.filterMap_cons] using ih n
      | some v => simpa [mkDocs, List.filterMap_cons] using ih (n + 1)

theorem mkDocs_map_id (l : List (Chunk × Option (List ℝ))) :
    ∀ n, (mkDocs l n).map IndexedRecord.id = List.range' n (mkDocs l n).length := by
  induction l with
  | nil => intro n; simp [mkDocs]
  | cons ce rest ih =>
      intro n
      obtain ⟨c, e⟩ := ce
      cases e with
      | none => simpa [mkDocs] using ih n
      | some v => simpa [mkDocs, List.range'] using ih (n + 1)

theorem zip_filterMap_snd :
    ∀ (chunks : List Chunk) (embeddings : List (Option (List ℝ))),
      chunks.length = embeddings.length →
      (chunks.zip embeddings).filterMap (fun ce => ce.2) = embeddings.filterMap id := by
  intro chunks
  induction chunks with
  | nil =>
      intro embeddings h
      cases embeddings with
      | nil => simp
      | cons e rest => simp at h
  | cons c rest ih =>
      intro embeddings h
      cases embeddings with
      | nil => simp at h
      | cons e erest =>
          simp only [List.length_cons, Nat.succ.injEq] at h
          cases e with
          | none => simpa [List.zip_cons_cons, List.filterMap_cons] using ih erest h
          | some v => simpa [List.zip_cons_cons, List.filterMap_cons] using ih erest h

/-- C7: for equal-length inputs, `createIndex` succeeds and its
`documents` are exactly the positions with a non-null embedding, in
input order, with ids `0, 1, …, n-1` in acceptance order, and
`metadata.totalChunks` equal to `documents.length`. -/
theorem createIndex_valid_records (chunks : List Chunk)
    (embeddings : List (Option (List ℝ))) (cs ov : ℕ) (created : String)
    (h : chunks.length = embeddings.length) :
    ∃ idx, createIndex chunks embeddings cs ov created = Except.ok idx ∧
      idx.documents.map (fun r => (r.content, r.embedding, r.source))
        = (chunks.zip embeddings).filterMap
            (fun ce => ce.2.map (fun e => (ce.1.content, e, ce.1.source))) ∧
      idx.documents.map IndexedRecord.id = List.range idx.documents.length ∧
      idx.metadata.totalChunks = idx.documents.length := by
  have hok : createIndex chunks embeddings cs ov created = Except.ok
      { metadata :=
          { created := created
            model := getModelName
            embeddingDimension := getEmbeddingDimension
            totalChunks := (buildDocs (chunks.zip embeddings) []).length
            chunkSize := cs
            overlap := ov }
        documents := buildDocs (chunks.zip embeddings) [] } := by
    unfold createIndex
    rw [if_neg (by simp [h])]
  refine ⟨_, hok, ?_, ?_, ?_⟩
  · simpa [buildDocs_eq_append] using mkDocs_map_payload (chunks.zip embeddings) 0
  · simpa [buildDocs_eq_append, List.range_eq_range']
      using mkDocs_map_id (chunks.zip embeddings) 0
  · simp

/-- Witness for C7 at a concrete input with a null embedding. -/
theorem createIndex_valid_records_witness :
    ∃ idx, createIndex chunks0 embeddings0 500 50 "t" = Except.ok idx ∧
      idx.documents.map (fun r => (r.content, r.embedding, r.source))
        = (chunks0.zip embeddings0).filterMap
            (fun ce => ce.2.map (fun e => (ce.1.content, e, ce.1.source))) ∧
      idx.documents.map IndexedRecord.id = List.range idx.documents.length ∧
      idx.metadata.totalChunks = idx.documents.length :=
  createIndex_valid_records chunks0 embeddings0 500 50 "t" rfl

/-- C4 counterexample: `createIndex` accepts a valid embedding of
length 2 although `metadata.embeddingDimension` is 384 — the build
succeeds, no `IndexIntegrityError` is raised. -/
theorem createIndex_accepts_wrong_dimension :
    (createIndex [⟨"hi", ⟨"f.txt", 0⟩⟩] [some [1, 2]] 500 50 "t").map
      (fun idx => (idx.metadata.embeddingDimension,
        idx.documents.map (fun r => r.embedding.length)))
      = Except.ok (384, [2]) := rfl

/-- C4 amended: `createIndex` performs no embedding-dimension
validation.  Given equal-length inputs it always succeeds, stores every
non-null embedding verbatim whatever its length, and declares
`embeddingDimension = 384` regardless of the stored vectors. -/
theorem createIndex_no_dimension_check (chunks : List Chunk)
    (embeddings : List (Option (List ℝ))) (cs ov : ℕ) (created : String)
    (h : chunks.length = embeddings.length) :
    ∃ idx, createIndex chunks embeddings cs ov created = Except.ok idx ∧
      idx.documents.map (fun r => r.embedding) = embeddings.filterMap id ∧
      idx.metadata.embeddingDimension = getEmbeddingDimension := by
  have hok : createIndex chunks embeddings cs ov created = Except.ok
      { metadata :=
          { created := created
            model := getModelName
            embeddingDimension := getEmbeddingDimension
            totalChunks := (buildDocs (chunks.zip embeddings) []).length
            chunkSize := cs
            overlap := ov }
        documents := buildDocs (chunks.zip embeddings) [] } := by
    unfold createIndex
    rw [if_neg (by simp [h])]
  refine ⟨_, hok, ?_, rfl⟩
  show (buildDocs (chunks.zip embeddings) []).map (fun r => r.embedding)
    = embeddings.filterMap id
  rw [buildDocs_eq_append]
  simpa [mkDocs_map_embedding] using zip_filterMap_snd chunks embeddings h

/-- Witness for C4's amended theorem: the length-2 embedding is kept
even though the declared dimension is 384. -/
theorem createIndex_no_dimension_check_witness :
    ∃ idx, createIndex [⟨"hi", ⟨"f.txt", 0⟩⟩] [some [1, 2]] 500 50 "t" = Except.ok idx ∧
      idx.documents.map (fun r => r.embedding)
        = ([some [1, 2]] : List (Option (List ℝ))).filterMap id ∧
      idx.metadata.embeddingDimension = getEmbeddingDimension :=
  createIndex_no_dimension_check [⟨"hi", ⟨"f.txt", 0⟩⟩] [some [1, 2]] 500 50 "t" rfl

/-! ### searcher.js lemmas -/

theorem except_bind_ok {α β ε : Type} (a : α) (f : α → Except ε β) :
    (Except.ok a : Except ε α) >>= f = f a := rfl

theorem except_bind_error {α β ε : Type} (e : ε) (f : α → Except ε β) :
    (Except.error e : Except ε α) >>= f = Except.error e := rfl

theorem cosineSimilarity_ok (vecA vecB : List ℝ) (h : vecA.length = vecB.length) :
    ∃ s, cosineSimilarity vecA vecB = Except.ok s := by
  unfold cosineSimilarity
  rw [if_neg (by simp [h])]
  by_cases hm : Real.sqrt ((vecA.map (fun x => x * x)).sum)
      * Real.sqrt ((vecB.map (fun x => x * x)).sum) = 0
  · exact ⟨0, by simp [hm]⟩
  · exact ⟨((vecA.zip vecB).map (fun p => p.1 * p.2)).sum
      / (Real.sqrt ((vecA.map (fun x => x * x)).sum)
        * Real.sqrt ((vecB.map (fun x => x * x)).sum)), by simp [hm]⟩

theorem cosineSimilarity_error (vecA vecB : List ℝ) (h : vecA.length ≠ vecB.length) :
    cosineSimilarity vecA vecB = Except.error "Vectors must have the same length" := by
  unfold cosineSimilarity
  rw [if_pos h]

theorem scoreDocs_ok_of_len (q : List ℝ) :
    ∀ docs : List IndexedRecord, (∀ d ∈ docs, d.embedding.length = q.length) →
      ∃ all, scoreDocs q docs = Except.ok all ∧ all.length = docs.length := by
  intro docs
  induction docs with
  | nil => intro _; exact ⟨[], rfl, rfl⟩
  | cons doc rest ih =>
      intro h
      obtain ⟨s, hsim⟩ :=
        cosineSimilarity_ok q doc.embedding (h doc (by simp)).symm
      obtain ⟨tail, htail, hlen⟩ := ih (fun d hd => h d (by simp [hd]))
      exact ⟨⟨doc.content, doc.source, s⟩ :: tail,
        by simp [scoreDocs, hsim, htail, except_bind_ok],
        by simp [hlen]⟩

theorem scoreDocs_error (q : List ℝ) :
    ∀ docs : List IndexedRecord, (∃ d ∈ docs, d.embedding.length ≠ q.length) →
      scoreDocs q docs = Except.error "Vectors must have the same length" := by
  intro docs
  induction docs with
  | nil =>
      rintro ⟨d, hd, -⟩
      simp at hd
  | cons doc rest ih =>
      rintro ⟨d, hd, hne⟩
      rcases List.mem_cons.mp hd with rfl | hd
      · have h := cosineSimilarity_error q d.embedding (fun h => hne h.symm)
        simp [scoreDocs, h, except_bind_error]
      · by_cases hdoc : doc.embedding.length = q.length
        · obtain ⟨s, hsim⟩ := cosineSimilarity_ok q doc.embedding hdoc.symm
          simp [scoreDocs, hsim, ih ⟨d, hd, hne⟩, except_bind_ok, except_bind_error]
        · have h := cosineSimilarity_error q doc.embedding (fun h => hdoc h.symm)
          simp [scoreDocs, h, except_bind_error]

theorem sortScores_sorted (l : List ScoredResult) :
    (sortScores l).Pairwise (fun a b => b.score ≤ a.score) := by
  have h : (l.mergeSort (fun a b => decide (b.score ≤ a.score))).Pairwise
      (fun a b : ScoredResult => decide (b.score ≤ a.score) = true) :=
    List.sorted_mergeSort
      (fun a b c hab hbc => by
        simp only [decide_eq_true_eq] at hab hbc ⊢
        exact le_trans hbc hab)
      (fun a b => by rcases le_total a.score b.score with h | h <;> simp [h])
      l
  exact h.imp (fun hab => by simpa using hab)

theorem sortScores_perm (l : List ScoredResult) : (sortScores l).Perm l :=
  List.mergeSort_perm l _

theorem searchIndex_eq (index : Index) (q : List ℝ) (topK : ℕ) (threshold : ℝ)
    (all : List ScoredResult) (hne : index.documents ≠ [])
    (hs : scoreDocs q index.documents = Except.ok all) :
    searchIndex index q topK threshold = Except.ok (SearchResponse.found
      (((sortScores all).take topK).filter (fun r => decide (threshold ≤ r.score)))
      { total := all.length
        topK := ((sortScores all).take topK).length
        filtered := ((sortScores all).take topK).length
          - (((sortScores all).take topK).filter
              (fun r => decide (threshold ≤ r.score))).length
        passed := (((sortScores all).take topK).filter
          (fun r => decide (threshold ≤ r.score))).length
        threshold := threshold
        maxScore := match (sortScores all).take topK with | [] => 0 | t :: _ => t.score
        minPassedScore := (((sortScores all).take topK).filter
          (fun r => decide (threshold ≤ r.score))).getLast?.map (fun r => r.score) }) := by
  unfold searchIndex
  rw [if_neg (by simpa [List.length_eq_zero] using hne), hs]
  rfl

/-- C8: `searchIndex` does not mutate the index.  In the state-passing
embedding `searchIndexSt`, whose store component is the caller's
`index.documents` array, the store returned to the caller is exactly
the input documents list, and the response agrees with the pure
`searchIndex`. -/
theorem searchIndex_no_mutation (index : Index) (q : List ℝ) (topK : ℕ) (threshold : ℝ) :
    searchIndexSt index.documents q topK threshold
      = (searchIndex index q topK threshold).map (fun resp => (resp, index.documents)) := by
  unfold searchIndexSt searchIndex
  by_cases h0 : index.documents.length = 0
  · simp [h0, Except.map]
  · rw [if_neg h0, if_neg h0]
    cases hsd : scoreDocs q index.documents with
    | error e => simp [hsd, Except.map, except_bind_error]
    | ok l => simp [hsd, Except.map, except_bind_ok]

/-- C5 counterexample: this index is empty and declares
`embeddingDimension = 384`; searching it with a query of length 1
(a `DimensionMismatch` by the claim) returns the degenerate empty
result, not an error. -/
theorem searchIndex_no_metadata_check_cex :
    idxEmpty.metadata.embeddingDimension = 384 ∧ ([(1 : ℝ)].length = 1) ∧
    searchIndex idxEmpty [1] 5 0 = Except.ok SearchResponse.degenerate :=
  ⟨rfl, rfl, rfl⟩

/-- C5 amended: `searchIndex` never consults
`metadata.embeddingDimension`.  An empty index returns the degenerate
empty result whatever the query length, and the only length error is
the one thrown by `cosineSimilarity` when some record's actual
embedding length differs from the query's. -/
theorem searchIndex_mismatch_behavior (index : Index) (q : List ℝ)
    (topK : ℕ) (threshold : ℝ) :
    (index.documents = [] →
      searchIndex index q topK threshold = Except.ok SearchResponse.degenerate) ∧
    ((∃ d ∈ index.documents, d.embedding.length ≠ q.length) →
      searchIndex index q topK threshold
        = Except.error "Vectors must have the same length") := by
  constructor
  · intro h
    unfold searchIndex
    rw [if_pos (by simp [h])]
  · intro h
    have hne : index.documents ≠ [] := by
      obtain ⟨d, hd, -⟩ := h
      intro hnil
      rw [hnil] at hd
      simp at hd
    unfold searchIndex
    rw [if_neg (by simpa [List.length_eq_zero] using hne), scoreDocs_error q index.documents h]
    rfl

/-- Witness for C5's amended theorem: a record of embedding length 2
searched with a query of length 1 hits the `cosineSimilarity` error. -/
theorem searchIndex_mismatch_behavior_witness :
    searchIndex idx2 [1] 5 0 = Except.error "Vectors must have the same length" :=
  (searchIndex_mismatch_behavior idx2 [1] 5 0).2 ⟨doc2, by simp [idx2], by decide⟩

/-- C6: `searchIndex` returns at most `topK` results, every returned
result has `score ≥ threshold`, and the results are in descending
score order. -/
theorem searchIndex_topK_threshold (index : Index) (q : List ℝ) (topK : ℕ) (threshold : ℝ)
    (hlen : ∀ d ∈ index.documents, d.embedding.length = q.length) :
    ∃ resp, searchIndex index q topK threshold = Except.ok resp ∧
      resp.results.length ≤ topK ∧
      (∀ r ∈ resp.results, threshold ≤ r.score) ∧
      resp.results.Pairwise (fun a b => b.score ≤ a.score) := by
  by_cases hne : index.documents = []
  · refine ⟨SearchResponse.degenerate, ?_, by simp [SearchResponse.results],
      by simp [SearchResponse.results], by simp [SearchResponse.results]⟩
    unfold searchIndex
    rw [if_pos (by simp [hne])]
  · obtain ⟨all, hs, -⟩ := scoreDocs_ok_of_len q index.documents hlen
    refine ⟨_, searchIndex_eq index q topK threshold all hne hs, ?_, ?_, ?_⟩
    · show (((sortScores all).take topK).filter
        (fun r => decide (threshold ≤ r.score))).length ≤ topK
      calc (((sortScores all).take topK).filter
            (fun r => decide (threshold ≤ r.score))).length
          ≤ ((sortScores all).take topK).length := List.length_filter_le _ _
        _ ≤ topK := List.length_take_le _ _
    · intro r hr
      simpa using List.of_mem_filter hr
    · exact List.Pairwise.sublist
        ((List.filter_sublist _).trans (List.take_sublist _ _)) (sortScores_sorted all)

/-- Witness for C6 at a one-record index with matching lengths. -/
theorem searchIndex_topK_threshold_witness :
    ∃ resp, searchIndex idx1 [1] 5 0 = Except.ok resp ∧
      resp.results.length ≤ 5 ∧
      (∀ r ∈ resp.results, (0 : ℝ) ≤ r.score) ∧
      resp.results.Pairwise (fun a b => b.score ≤ a.score) :=
  searchIndex_topK_threshold idx1 [1] 5 0 (by
    intro d hd
    rw [show idx1.documents = [doc1] from rfl, List.mem_singleton] at hd
    subst hd
    rfl)

/-- C10: with `topK = 0` on a non-empty index of matching record
lengths, `searchIndex` returns no results and stats with
`total = number of records scored`, `passed = 0`, `filtered = 0`,
`maxScore = 0`, `minPassedScore = null`. -/
theorem searchIndex_topK_zero (index : Index) (q : List ℝ) (threshold : ℝ)
    (hne : index.documents ≠ [])
    (hlen : ∀ d ∈ index.documents, d.embedding.length = q.length) :
    ∃ stats, searchIndex index q 0 threshold = Except.ok (SearchResponse.found [] stats) ∧
      stats.total = index.documents.length ∧ stats.passed = 0 ∧ stats.filtered = 0 ∧
      stats.maxScore = 0 ∧ stats.minPassedScore = none := by
  obtain ⟨all, hs, hal⟩ := scoreDocs_ok_of_len q index.documents hlen
  exact ⟨_, searchIndex_eq index q 0 threshold all hne hs, hal, rfl, rfl, rfl, rfl⟩

/-- Witness for C10 at a one-record index. -/
theorem searchIndex_topK_zero_witness :
    ∃ stats, searchIndex idx1 [1] 0 0 = Except.ok (SearchResponse.found [] stats) ∧
      stats.total = idx1.documents.length ∧ stats.passed = 0 ∧ stats.filtered = 0 ∧
      stats.maxScore = 0 ∧ stats.minPassedScore = none :=
  searchIndex_topK_zero idx1 [1] 0 (by simp [idx1]) (by
    intro d hd
    rw [show idx1.documents = [doc1] from rfl, List.mem_singleton] at hd
    subst hd
    rfl)

theorem cosSim_one_one : cosineSimilarity [1] [(1 : ℝ)] = Except.ok 1 := by
  simp [cosineSimilarity, Real.sqrt_one]

theorem cosSim_one_negone : cosineSimilarity [1] [(-1 : ℝ)] = Except.ok (-1) := by
  simp [cosineSimilarity, Real.sqrt_one]

theorem scoreDocs_idx3 : scoreDocs [1] idx3.documents
    = Except.ok [⟨"hello", src0, 1⟩, ⟨"neg", src0, -1⟩] := by
  simp [idx3, doc1, docNeg2, scoreDocs, cosSim_one_one, cosSim_one_negone, except_bind_ok]

theorem sortScores_posneg :
    sortScores [(⟨"hello", src0, 1⟩ : ScoredResult), ⟨"neg", src0, -1⟩]
      = [⟨"hello", src0, 1⟩, ⟨"neg", src0, -1⟩] := by
  simp [sortScores, List.mergeSort, List.merge, (by norm_num : ((-1 : ℝ) ≤ 1))]

theorem scoreDocs_idxNeg : scoreDocs [1] idxNeg.documents = Except.ok [⟨"neg", src0, -1⟩] := by
  simp [idxNeg, docNeg, scoreDocs, cosSim_one_negone, except_bind_ok]

/-- C2 counterexample: one record whose cosine similarity to the query
is `-1`, searched with `threshold = 0` and `topK = 1`.  The claim says
threshold 0 disables filtering and the single candidate is returned;
the code filters it out (`-1 < 0`) and returns no results. -/
theorem searchIndex_threshold_zero_cex :
    idxNeg.documents.length = 1 ∧
    (searchIndex idxNeg [1] 1 0).map SearchResponse.results = Except.ok [] := by
  refine ⟨rfl, ?_⟩
  have hsort : sortScores [(⟨"neg", src0, -1⟩ : ScoredResult)] = [⟨"neg", src0, -1⟩] :=
    List.perm_singleton.mp (sortScores_perm _)
  rw [searchIndex_eq idxNeg [1] 1 0 [⟨"neg", src0, -1⟩] (by simp [idxNeg]) scoreDocs_idxNeg]
  simp [hsort, Except.map, SearchResponse.results, List.filter_cons,
    show ¬ ((0 : ℝ) ≤ -1) by norm_num]

/-- C2 amended: with `threshold = 0`, `searchIndex` returns exactly the
`topK` highest-scoring candidates provided no *candidate* — no element
of the top-K slice of the sorted scored records — has a negative score;
a candidate with negative cosine similarity is still filtered out even
at threshold 0 (scored records outside the top-K slice may be negative
without affecting the result). -/
theorem searchIndex_threshold_zero (index : Index) (q : List ℝ) (topK : ℕ)
    (all : List ScoredResult) (hne : index.documents ≠ [])
    (hs : scoreDocs q index.documents = Except.ok all)
    (hnn : ∀ r ∈ (sortScores all).take topK, 0 ≤ r.score) :
    ∃ stats, searchIndex index q topK 0 = Except.ok
      (SearchResponse.found ((sortScores all).take topK) stats) := by
  have hfil : ((sortScores all).take topK).filter (fun r => decide ((0 : ℝ) ≤ r.score))
      = (sortScores all).take topK := by
    rw [List.filter_eq_self]
    intro r hr
    simpa using hnn r hr
  exact ⟨{ total := all.length
           topK := ((sortScores all).take topK).length
           filtered := ((sortScores all).take topK).length
             - ((sortScores all).take topK).length
           passed := ((sortScores all).take topK).length
           threshold := 0
           maxScore := match (sortScores all).take topK with | [] => 0 | t :: _ => t.score
           minPassedScore := ((sortScores all).take topK).getLast?.map (fun r => r.score) },
    by rw [searchIndex_eq index q topK 0 all hne hs, hfil]⟩

/-- Witness for C2's amended theorem: a two-record index scoring 1 and
-1 against the query, with `topK = 1`.  The single candidate (score 1)
is nonnegative even though a scored record outside the top-K slice is
negative, and the candidate is returned at threshold 0. -/
theorem searchIndex_threshold_zero_witness :
    ∃ stats, searchIndex idx3 [1] 1 0 = Except.ok
      (SearchResponse.found
        ((sortScores [⟨"hello", src0, 1⟩, ⟨"neg", src0, -1⟩]).take 1) stats) :=
  searchIndex_threshold_zero idx3 [1] 1 [⟨"hello", src0, 1⟩, ⟨"neg", src0, -1⟩]
    (by simp [idx3]) scoreDocs_idx3
    (by
      rw [sortScores_posneg]
      intro r hr
      simp at hr
      subst hr
      exact zero_le_one)

/-! ### Persistence round-trip (C9) -/

theorem json_num_injective : Function.Injective Json.num := by
  intro a b h
  injection h

theorem docToJson_injective : Function.Injective docToJson := by
  intro r1 r2 h
  cases r1 with
  | mk id1 c1 e1 s1 =>
  cases r2 with
  | mk id2 c2 e2 s2 =>
  cases s1
  cases s2
  simp only [docToJson, sourceToJson, Json.obj.injEq, List.cons.injEq, Prod.mk.injEq,
    Json.num.injEq, Json.str.injEq, Json.arr.injEq, Nat.cast_inj, true_and, and_true] at h
  obtain ⟨h1, h2, h3, h4, h5⟩ := h
  subst h1
  subst h2
  subst h4
  subst h5
  rw [List.map_injective_iff.mpr json_num_injective h3]

theorem metadataToJson_injective : Function.Injective metadataToJson := by
  intro m1 m2 h
  cases m1
  cases m2
  simp only [metadataToJson, Json.obj.injEq, List.cons.injEq, Prod.mk.injEq,
    Json.num.injEq, Json.str.injEq, Nat.cast_inj, true_and, and_true] at h
  obtain ⟨h1, h2, h3, h4, h5, h6⟩ := h
  simp_all

theorem indexToJson_injective : Function.Injective indexToJson := by
  intro i1 i2 h
  cases i1 with
  | mk m1 d1 =>
  cases i2 with
  | mk m2 d2 =>
  simp only [indexToJson, Json.obj.injEq, List.cons.injEq, Prod.mk.injEq, Json.arr.injEq,
    true_and, and_true] at h
  obtain ⟨hm, hd⟩ := h
  rw [metadataToJson_injective hm, List.map_injective_iff.mpr docToJson_injective hd]

/-- C9: round-trip through the persisted artifact.  Loading the JSON
document that `saveIndex` serializes passes `loadIndex`'s validation
and returns exactly that document, and the document determines the
index: any index serializing to it has the same metadata and the same
records (content, source, embedding values).  Numbers are modelled
exactly, matching the serialization format's round-trip of JS
numbers. -/
theorem saveIndex_loadIndex_roundtrip (idx : Index) :
    loadIndexJson (indexToJson idx) = Except.ok (indexToJson idx) ∧
    ∀ idx2, indexToJson idx2 = indexToJson idx → idx2 = idx := by
  constructor
  · rfl
  · intro idx2 h
    exact indexToJson_injective h

/-- Witness for C9 at a concrete one-record index. -/
theorem saveIndex_loadIndex_roundtrip_witness :
    loadIndexJson (indexToJson idx1) = Except.ok (indexToJson idx1) ∧ idx1 = idx1 :=
  ⟨(saveIndex_loadIndex_roundtrip idx1).1, (saveIndex_loadIndex_roundtrip idx1).2 idx1 rfl⟩

/-! ### Chunker parameter validation (C3) -/

/-- C3 counterexample: `overlap = 5 ≥ chunkSize = 3` violates the
claimed precondition, yet with empty text the call returns `[]` and
with a short text it returns the single chunk — no error in either
case. -/
theorem chunkText_skips_validation :
    chunkTextFuel [] 3 5 1 = some (Except.ok []) ∧
    chunkTextFuel ('h' :: ['i']) 3 5 1 = some (Except.ok [(0, ['h', 'i'])]) :=
  ⟨rfl, rfl⟩

/-- C3 amended: the only parameter check in `chunkText` is
`overlap ≥ chunkSize`, and it runs only after the early returns: when
the normalized text fits in one chunk (in particular when the text is
empty) the invalid parameters are ignored and the early result is
returned; the error is thrown exactly when the normalized text is
longer than `chunkSize`.  Positivity and integrality of the parameters
are never checked. -/
theorem chunkText_param_check (text : List Char) (cs ov fuel : ℕ) (hov : cs ≤ ov) :
    ((normalizeText text).length ≤ cs →
      ∃ r, chunkTextFuel text cs ov fuel = some (Except.ok r)) ∧
    (cs < (normalizeText text).length →
      chunkTextFuel text cs ov fuel
        = some (Except.error "Overlap must be smaller than chunk size")) := by
  constructor
  · intro hlen
    by_cases ht : text = []
    · exact ⟨[], by simp [chunkTextFuel, ht]⟩
    · by_cases h0 : (normalizeText text).length = 0
      · exact ⟨[], by simp [chunkTextFuel, ht, h0]⟩
      · exact ⟨[(0, normalizeText text)], by simp [chunkTextFuel, ht, h0, hlen]⟩
  · intro hlen
    have ht : text ≠ [] := by
      intro h
      rw [h] at hlen
      simp [normalizeText, collapseWs, trimChars] at hlen
    have h0 : (normalizeText text).length ≠ 0 := by omega
    simp [chunkTextFuel, ht, h0, Nat.not_le.mpr hlen, hov]

/-- Witness for C3's amended theorem: short text, invalid parameters,
normal return. -/
theorem chunkText_param_check_witness :
    ∃ r, chunkTextFuel ('h' :: ['i']) 3 5 1 = some (Except.ok r) :=
  (chunkText_param_check ('h' :: ['i']) 3 5 1 (by decide)).1 (by decide)

end DocIndexer
